import Mathlib

/-!
Shallow embedding of the mr_supabase database access layer.

Embedded from the Python sources:
* client.py: value coercion and raw-filter parsing inside
  SupabaseClient._apply_raw_filters, query construction in query_table,
  the mutation builders update_records and delete_records, and the
  schema formatter format_schema_for_agent;
* mod.py: format_schema_from_postgres_data, the schema-gathering service
  db_inject_schema_info, and the message pipe inject_db_schema;
* utils.py: the schema block delimiters and clean_db_schema_from_messages.

External collaborators (the Supabase query object, the PostgreSQL
connection, the agent framework) are modelled as explicit parameters:
the set of operator method names the query object exposes, and
table-lookup oracles returning Except values for backend calls that can
raise.  Python strings that undergo splitting, searching or slicing are
modelled as List Char so that every operation is structural recursion;
strings that are only concatenated are modelled as Lean String.
-/

namespace MrSupabase

/-- Python str characters considered whitespace by str.strip. -/
def isPySpace (c : Char) : Bool :=
  c = ' ' || c = '\t' || c = '\n' || c = '\r' || c = '\x0b' || c = '\x0c'

/-- Python str.strip(): remove leading and trailing whitespace. -/
def pyStrip (l : List Char) : List Char :=
  ((l.dropWhile isPySpace).reverse.dropWhile isPySpace).reverse

/-- Python str.split(sep) for a one-character separator: the empty string
gives a single empty part, and consecutive separators give empty parts. -/
def splitChar (sep : Char) : List Char → List (List Char)
  | [] => [[]]
  | c :: rest =>
    let r := splitChar sep rest
    if c = sep then [] :: r
    else
      match r with
      | h :: t => (c :: h) :: t
      | [] => [[c]]

/-- Python sep.join(parts) for a one-character separator. -/
def joinChar (sep : Char) : List (List Char) → List Char
  | [] => []
  | [x] => x
  | x :: rest => x ++ sep :: joinChar sep rest

/-- Python str.lower restricted to ASCII. -/
def pyLower (l : List Char) : List Char :=
  l.map Char.toLower

/-- Python str.isdigit restricted to ASCII strings: nonempty and every
character is a decimal digit (no sign, no decimal point). -/
def pyIsDigit (l : List Char) : Bool :=
  !l.isEmpty && l.all (fun c => c.isDigit)

/-- Python int() applied to an all-digit decimal string. -/
def pyInt (l : List Char) : Int :=
  Int.ofNat (l.foldl (fun n c => 10 * n + (c.toNat - 48)) 0)

/-- Scalar values a raw-filter value can carry after the conversion step:
Python None, bool, int, or the original string. -/
inductive Scalar where
  | null
  | bool (b : Bool)
  | int (n : Int)
  | str (s : List Char)
deriving DecidableEq

/-- One column.operator.value filter condition applied to a query. -/
structure Predicate where
  column : List Char
  operator : List Char
  value : Scalar
deriving DecidableEq

/-- The value conversion step of _apply_raw_filters (client.py lines 67-75):
case-insensitive null, then true, then false, then all-digit integer,
otherwise the string is kept unmodified. -/
def coerce (value : List Char) : Scalar :=
  if pyLower value = "null".data then Scalar.null
  else if pyLower value = "true".data then Scalar.bool true
  else if pyLower value = "false".data then Scalar.bool false
  else if pyIsDigit value then Scalar.int (pyInt value)
  else Scalar.str value

/-- Clause decomposition of _apply_raw_filters (client.py lines 57-65):
strip the clause, split on dots; fewer than three parts is invalid (none);
otherwise the first part is the column, the second the operator, and the
remaining parts are rejoined with dots as the raw value. -/
def parseParts (expr : List Char) : Option (List Char × List Char × List Char) :=
  match splitChar '.' (pyStrip expr) with
  | c :: op :: v0 :: rest => some (c, op, joinChar '.' (v0 :: rest))
  | _ => none

/-- The per-clause loop of _apply_raw_filters (client.py lines 56-82),
threading the query as the list of predicates applied so far.  queryOps is
the set of callable attribute names exposed by the backend query object
(the hasattr/callable capability probe); a clause whose operator is not
among them only prints a warning and applies nothing. -/
def applyClauses (queryOps : List (List Char)) :
    List Predicate → List (List Char) → List Predicate
  | q, [] => q
  | q, expr :: rest =>
    match parseParts expr with
    | none => applyClauses queryOps q rest
    | some (c, op, v) =>
      if op ∈ queryOps then
        applyClauses queryOps (q ++ [{ column := c, operator := op, value := coerce v }]) rest
      else
        applyClauses queryOps q rest

/-- SupabaseClient._apply_raw_filters (client.py lines 39-83): a falsy
raw_filters argument (None or the empty string) returns the query
unchanged; otherwise the string is split on commas and each clause is
processed in order. -/
def applyRawFilters (queryOps : List (List Char)) (query : List Predicate)
    (rawFilters : Option (List Char)) : List Predicate :=
  match rawFilters with
  | none => query
  | some raw =>
    if raw = [] then query
    else applyClauses queryOps query (splitChar ',' raw)

/-- The predicates produced from a raw filter string alone. -/
def parsedPredicates (queryOps : List (List Char)) (raw : List Char) : List Predicate :=
  applyRawFilters queryOps [] (some raw)

/-- The nine-operator known-safe allowlist named by the spec.  The code
itself never consults such a list — its gate is the hasattr/callable
probe — so this set only states what the claims assert about operators
and serves as one concrete operator set in computations. -/
def allowedOperators : List (List Char) :=
  ["eq", "neq", "gt", "gte", "lt", "lte", "like", "ilike", "is"].map String.data

/-- A lower bound on the callable method surface of the query object
that _apply_raw_filters probes with hasattr: client.py itself calls
order (line 123), limit (line 127), offset (line 130) and execute
(line 133) on the very same threaded query object, so any faithful
capability surface contains these names besides the filter operators. -/
def queryObjectMethods : List (List Char) :=
  allowedOperators ++ ["order", "limit", "offset", "execute"].map String.data

/-- A table row, as the ordered mapping returned by the backend. -/
def Row : Type := List (List Char × Scalar)

instance : DecidableEq Row := by
  unfold Row
  infer_instance

/-- The backend query assembled by query_table before execution. -/
structure BuiltQuery where
  table : List Char
  select : List Char
  preds : List Predicate
  order : Option (List Char × Bool)
  limit : Option Int
  offset : Option Int
deriving DecidableEq

/-- Pagination application (client.py lines 125-130): Python truthiness
means a limit or offset of None or 0 adds no clause. -/
def paginate (q : BuiltQuery) (limit offset : Option Int) : BuiltQuery :=
  let q := match limit with
    | some l => if l ≠ 0 then { q with limit := some l } else q
    | none => q
  match offset with
  | some o => if o ≠ 0 then { q with offset := some o } else q
  | none => q

/-- SupabaseClient.query_table (client.py lines 85-133), up to the
execute call: builds the backend query from select, equality filters,
raw filters, order and pagination.  Returns none when the order-clause
unpacking `col, direction = order.split(".")` raises (three or more
dot-separated parts). -/
def query_table (queryOps : List (List Char)) (table select : List Char)
    (filters : Option (List (List Char × Scalar))) (order : Option (List Char))
    (limit offset : Option Int) (raw_filters : Option (List Char)) :
    Option BuiltQuery :=
  let q : BuiltQuery :=
    { table := table, select := select, preds := [], order := none,
      limit := none, offset := none }
  let q := match filters with
    | some fs => if fs = [] then q
        else { q with preds := q.preds ++ fs.map (fun (cv : List Char × Scalar) => Predicate.mk cv.1 "eq".data cv.2) }
    | none => q
  let q := { q with preds := applyRawFilters queryOps q.preds raw_filters }
  let ordered : Option BuiltQuery := match order with
    | none => some q
    | some o =>
      if o = [] then some q
      else if '.' ∈ o then
        match splitChar '.' o with
        | [col, dir] => some { q with order := some (col, dir = "desc".data) }
        | _ => none
      else some { q with order := some (o, false) }
  ordered.map (fun q2 => paginate q2 limit offset)

/-- Row selection performed by executing a built query: filter by the
conjunction of all predicates, then drop the offset, then take the limit.
The predicate and ordering semantics live in the backend; the predicate
test is a parameter and ordering only permutes rows, which no theorem
here depends on. -/
def runBuilt (evalPred : Predicate → Row → Bool) (q : BuiltQuery)
    (rows : List Row) : List Row :=
  let m := rows.filter (fun r => q.preds.all (fun p => evalPred p r))
  let m := match q.offset with
    | some o => m.drop o.toNat
    | none => m
  match q.limit with
  | some l => m.take l.toNat
  | none => m

/-- A mutation request sent to the backend by update_records (kind
"update") or delete_records (kind "delete"): table, payload, and the
predicates restricting the affected rows. -/
structure MutationCall where
  kind : List Char
  table : List Char
  payload : List (List Char × Scalar)
  preds : List Predicate
deriving DecidableEq

/-- What the backend reports for an executed request: an optional error
payload and the returned rows. -/
structure BackendResponse where
  error : Option (List Char)
  data : List Row
deriving DecidableEq

/-- The query built by update_records (client.py lines 169-197): the
update payload, then every equality filter in order, then the raw
filters.  No validation happens: the call is built and executed even
when both filter sources are empty. -/
def update_call (queryOps : List (List Char)) (table : List Char)
    (data : List (List Char × Scalar)) (filters : List (List Char × Scalar))
    (raw_filters : Option (List Char)) : MutationCall :=
  let preds := filters.map (fun (cv : List Char × Scalar) => Predicate.mk cv.1 "eq".data cv.2)
  { kind := "update".data, table := table, payload := data,
    preds := applyRawFilters queryOps preds raw_filters }

/-- SupabaseClient.update_records (client.py lines 169-203): execute the
built query against the backend unconditionally; raise only when the
backend response carries a truthy error, otherwise return its data. -/
def update_records (backend : MutationCall → BackendResponse)
    (queryOps : List (List Char)) (table : List Char)
    (data : List (List Char × Scalar)) (filters : List (List Char × Scalar))
    (raw_filters : Option (List Char)) : Except (List Char) (List Row) :=
  let response := backend (update_call queryOps table data filters raw_filters)
  match response.error with
  | some e => if e = [] then Except.ok response.data
      else Except.error ("Supabase update error: ".data ++ e)
  | none => Except.ok response.data

/-- The query built by delete_records (client.py lines 205-229). -/
def delete_call (queryOps : List (List Char)) (table : List Char)
    (filters : List (List Char × Scalar)) (raw_filters : Option (List Char)) :
    MutationCall :=
  let preds := filters.map (fun (cv : List Char × Scalar) => Predicate.mk cv.1 "eq".data cv.2)
  { kind := "delete".data, table := table, payload := [],
    preds := applyRawFilters queryOps preds raw_filters }

/-- SupabaseClient.delete_records (client.py lines 205-237): same
unconditional execution as update_records. -/
def delete_records (backend : MutationCall → BackendResponse)
    (queryOps : List (List Char)) (table : List Char)
    (filters : List (List Char × Scalar)) (raw_filters : Option (List Char)) :
    Except (List Char) (List Row) :=
  let response := backend (delete_call queryOps table filters raw_filters)
  match response.error with
  | some e => if e = [] then Except.ok response.data
      else Except.error ("Supabase delete error: ".data ++ e)
  | none => Except.ok response.data

/-- One column record, as returned by the information_schema lookups and
consumed by the formatters.  column_default none models SQL NULL. -/
structure Column where
  column_name : String
  data_type : String
  is_nullable : String
  column_default : Option String
deriving DecidableEq

/-- One foreign-key relationship record, as returned by the
relationship lookups and consumed by the formatters. -/
structure Rel where
  table_name : String
  column_name : String
  foreign_table_name : String
  foreign_column_name : String
deriving DecidableEq

/-- The per-table value stored in the tables_info mapping. -/
structure TableInfo where
  columns : List Column
  relationships : List Rel
deriving DecidableEq

/-- The column line of the formatters: nullability is NULL exactly when
is_nullable is YES, and the DEFAULT suffix appears only for a truthy
(present and nonempty) column_default. -/
def columnLine (column : Column) : String :=
  let nullable := if column.is_nullable = "YES" then "NULL" else "NOT NULL"
  let dflt := match column.column_default with
    | some d => if d = "" then "" else " DEFAULT " ++ d
    | none => ""
  "  - " ++ column.column_name ++ ": " ++ column.data_type ++ " " ++ nullable ++ dflt ++ "\n"

/-- The relationship line of the formatters.  The arrow glyph is the
Unicode right arrow written in the source. -/
def relLine (rel : Rel) : String :=
  "  - " ++ rel.column_name ++ " → " ++ rel.foreign_table_name ++ "."
    ++ rel.foreign_column_name ++ "\n"

/-- SupabaseClient.format_schema_for_agent (client.py lines 370-402):
header, then per table the name line, the column lines, the relationship
block when relationships are non-empty, and a trailing blank line.  The
tables_info mapping is a list of pairs in Python dict insertion order. -/
def format_schema_for_agent (tables_info : List (String × TableInfo)) : String :=
  tables_info.foldl (fun schema_text tbl =>
    let schema_text := schema_text ++ "Table: " ++ tbl.1 ++ "\n"
    let schema_text := schema_text ++ "Columns:\n"
    let schema_text := tbl.2.columns.foldl (fun acc column => acc ++ columnLine column) schema_text
    let schema_text :=
      if tbl.2.relationships ≠ [] then
        tbl.2.relationships.foldl (fun acc rel => acc ++ relLine rel)
          (schema_text ++ "Relationships:\n")
      else schema_text
    schema_text ++ "\n") "DATABASE SCHEMA INFORMATION:\n\n"

/-- format_schema_from_postgres_data (mod.py lines 32-63): textually the
same algorithm as format_schema_for_agent. -/
def format_schema_from_postgres_data (tables_info : List (String × TableInfo)) : String :=
  tables_info.foldl (fun schema_text tbl =>
    let schema_text := schema_text ++ "Table: " ++ tbl.1 ++ "\n"
    let schema_text := schema_text ++ "Columns:\n"
    let schema_text := tbl.2.columns.foldl (fun acc column => acc ++ columnLine column) schema_text
    let schema_text :=
      if tbl.2.relationships ≠ [] then
        tbl.2.relationships.foldl (fun acc rel => acc ++ relLine rel)
          (schema_text ++ "Relationships:\n")
      else schema_text
    schema_text ++ "\n") "DATABASE SCHEMA INFORMATION:\n\n"

/-- Modelled from the spec (section 4.6): the column line as the spec
words it, with the DEFAULT suffix exactly when a default expression is
present. -/
def specColumnLine (column : Column) : String :=
  "  - " ++ column.column_name ++ ": " ++ column.data_type ++ " "
    ++ (if column.is_nullable = "YES" then "NULL" else "NOT NULL")
    ++ (match column.column_default with
        | some d => " DEFAULT " ++ d
        | none => "")

/-- Modelled from the spec (section 4.6): the relationship line with a
caller-chosen arrow text. -/
def specRelLine (arrow : String) (rel : Rel) : String :=
  "  - " ++ rel.column_name ++ arrow ++ rel.foreign_table_name ++ "."
    ++ rel.foreign_column_name

/-- Newline-terminated concatenation of a list of lines. -/
def joinLines : List String → String
  | [] => ""
  | l :: rest => l ++ "\n" ++ joinLines rest

/-- Modelled from the spec (section 4.6): the lines of one table block,
ending in the blank separator line. -/
def specTableBlock (arrow : String) (tn : String) (ti : TableInfo) : List String :=
  ["Table: " ++ tn, "Columns:"] ++ ti.columns.map specColumnLine
    ++ (if ti.relationships = [] then []
        else "Relationships:" :: ti.relationships.map (specRelLine arrow))
    ++ [""]

/-- Modelled from the spec (section 4.6): the whole format, as the header
line, a blank line, and every table block in mapping order. -/
def specFormat (arrow : String) (tables_info : List (String × TableInfo)) : String :=
  joinLines (["DATABASE SCHEMA INFORMATION:", ""]
    ++ tables_info.flatMap (fun tbl => specTableBlock arrow tbl.1 tbl.2))

/-- The claimed byte format, with the ASCII arrow named by the claim. -/
def specFormatAscii (tables_info : List (String × TableInfo)) : String :=
  specFormat " -> " tables_info

/-- The byte format actually written by the source, with the Unicode
right arrow. -/
def specFormatArrow (tables_info : List (String × TableInfo)) : String :=
  specFormat " → " tables_info

/-- The environment db_inject_schema_info runs against: whether the
Primary (direct PostgreSQL) client can be constructed, whether the
Secondary (Supabase) client is available, the per-table lookup oracles
of both backends (error means the call raised), and the enabled_tables
list from the agent settings. -/
structure SchemaEnv where
  pgAvailable : Bool
  dbClientOk : Bool
  pgDescribe : String → Except String (List Column)
  pgRels : String → Except String (List Rel)
  sbDescribe : String → Except String (List Column)
  sbRels : String → Except String (List Rel)
  enabledTables : List String

/-- The per-table loop of db_inject_schema_info on the Primary backend
(mod.py lines 134-154, use_postgres branch): the first exception from
either lookup makes the whole function return None, so the gathering is
an Except fold with no per-table recovery. -/
def gatherPg (env : SchemaEnv) : List String → Except String (List (String × TableInfo))
  | [] => Except.ok []
  | t :: ts =>
    match env.pgDescribe t with
    | Except.error e => Except.error e
    | Except.ok cols =>
      match env.pgRels t with
      | Except.error e => Except.error e
      | Except.ok rels =>
        match gatherPg env ts with
        | Except.error e => Except.error e
        | Except.ok rest => Except.ok ((t, TableInfo.mk cols rels) :: rest)

/-- The per-table loop of db_inject_schema_info on the Secondary backend
(mod.py lines 143-154): lookups are not wrapped in a local handler, so
an exception propagates to the outer handler and the function returns
None. -/
def gatherSb (env : SchemaEnv) : List String → Except String (List (String × TableInfo))
  | [] => Except.ok []
  | t :: ts =>
    match env.sbDescribe t with
    | Except.error e => Except.error e
    | Except.ok cols =>
      match env.sbRels t with
      | Except.error e => Except.error e
      | Except.ok rels =>
        match gatherSb env ts with
        | Except.error e => Except.error e
        | Except.ok rest => Except.ok ((t, TableInfo.mk cols rels) :: rest)

/-- Table-argument resolution of db_inject_schema_info (mod.py lines
118-121): a None argument falls back to the enabled_tables setting when
that is non-empty. -/
def resolveTables (env : SchemaEnv) (tables : Option (List String)) : List String :=
  match tables with
  | some ts => ts
  | none => if env.enabledTables ≠ [] then env.enabledTables else []

/-- db_inject_schema_info (mod.py lines 95-168).  Returns none where the
Python function returns None.  When the resolved table list is empty the
code reaches get_all_table_names(use_postgres, pg_client, db_client) at
line 125, where one of pg_client and db_client is always an unbound
local, so the NameError is caught by the outer handler and the function
returns None. -/
def db_inject_schema_info (env : SchemaEnv) (tables : Option (List String)) :
    Option String :=
  if env.pgAvailable then
    let resolved := resolveTables env tables
    if resolved = [] then none
    else
      match gatherPg env resolved with
      | Except.error _ => none
      | Except.ok info => some (format_schema_from_postgres_data info)
  else if !env.dbClientOk then
    some "Error: Database client unavailable"
  else
    let resolved := resolveTables env tables
    if resolved = [] then none
    else
      match gatherSb env resolved with
      | Except.error _ => none
      | Except.ok info => some (format_schema_for_agent info)

/-- The literal start marker from utils.py. -/
def DB_SCHEMA_START_DELIMITER : List Char := "<!-- DB_SCHEMA_START -->".data

/-- The literal end marker from utils.py. -/
def DB_SCHEMA_END_DELIMITER : List Char := "<!-- DB_SCHEMA_END -->".data

/-- Python str.find for the guarded uses in utils.py and mod.py: the
index of the first occurrence of pat as a contiguous run, none when pat
does not occur. -/
def firstIdx (pat : List Char) : List Char → Option Nat
  | [] => if pat.isPrefixOf ([] : List Char) then some 0 else none
  | c :: rest =>
    if pat.isPrefixOf (c :: rest) then some 0
    else (firstIdx pat rest).map (fun n => n + 1)

/-- Message content: a Python string, a list of typed parts (each
modelled by its text), or any other value. -/
inductive MsgContent where
  | str (s : List Char)
  | parts (l : List (List Char))
  | other
deriving DecidableEq

/-- One conversation message. -/
structure Message where
  role : String
  content : MsgContent
deriving DecidableEq

/-- The per-message body of clean_db_schema_from_messages (utils.py
lines 72-80): a non-system message whose string content contains both
delimiters is rewritten to the text before the first start marker plus
the text after the end of the first end marker. -/
def cleanMessage (m : Message) : Message :=
  if m.role ≠ "system" then
    match m.content with
    | MsgContent.str c =>
      match firstIdx DB_SCHEMA_START_DELIMITER c, firstIdx DB_SCHEMA_END_DELIMITER c with
      | some si, some ei =>
        { m with content :=
            MsgContent.str (c.take si ++ c.drop (ei + DB_SCHEMA_END_DELIMITER.length)) }
      | _, _ => m
    | _ => m
  else m

/-- clean_db_schema_from_messages (utils.py lines 57-82): rewrite every
message in place with cleanMessage. -/
def clean_db_schema_from_messages (messages : List Message) : List Message :=
  messages.map cleanMessage

/-- The delimited schema block appended by inject_db_schema (mod.py
line 596). -/
def delimitedSchema (info : List Char) : List Char :=
  "\n\n".data ++ DB_SCHEMA_START_DELIMITER ++ "\n".data ++ info
    ++ "\n".data ++ DB_SCHEMA_END_DELIMITER

/-- The schema_exists test of inject_db_schema (mod.py lines 570-573):
both delimiters occur in the string content. -/
def schemaExistsIn (c : List Char) : Bool :=
  (firstIdx DB_SCHEMA_START_DELIMITER c).isSome
    && (firstIdx DB_SCHEMA_END_DELIMITER c).isSome

/-- The inject_db_schema pipe (mod.py lines 541-617).  schemaGen is the
value db_inject_schema_info would produce when consulted.  An empty
message list is returned unchanged; schema_exists is checked only on a
first message that is a system message with string content; a falsy
schema_info (None, or the empty string) returns the data unchanged; the
fresh delimited block is appended to the first message only when it is a
system message, to its string content or as a new part. -/
def inject_db_schema (schemaGen : Option (List Char)) (msgs : List Message) :
    List Message :=
  match msgs with
  | [] => msgs
  | m :: rest =>
    let hasSystemMessage := m.role = "system"
    let schemaExists : Bool :=
      if hasSystemMessage then
        match m.content with
        | MsgContent.str c => schemaExistsIn c
        | _ => false
      else false
    let schemaInfo : Option (List Char) := if schemaExists then none else schemaGen
    match schemaInfo with
    | none => msgs
    | some info =>
      if info = [] then msgs
      else if hasSystemMessage then
        match m.content with
        | MsgContent.str c =>
          { m with content := MsgContent.str (c ++ delimitedSchema info) } :: rest
        | MsgContent.parts l =>
          { m with content := MsgContent.parts (l ++ [delimitedSchema info]) } :: rest
        | MsgContent.other => msgs
      else msgs

/-- Concatenation of a list of already newline-terminated pieces. -/
def strConcat : List String → String
  | [] => ""
  | s :: rest => s ++ strConcat rest

/-- The text one table contributes to the formatter output. -/
def tableText (tbl : String × TableInfo) : String :=
  "Table: " ++ tbl.1 ++ "\n" ++ "Columns:\n"
    ++ strConcat (tbl.2.columns.map columnLine)
    ++ (if tbl.2.relationships ≠ [] then
          "Relationships:\n" ++ strConcat (tbl.2.relationships.map relLine)
        else "")
    ++ "\n"

/-- A backend that accepts any mutation and returns one row, used to
exhibit executions that the claims say must not happen. -/
def fullTableBackend : MutationCall → BackendResponse :=
  fun _ => { error := none, data := [[("id".data, Scalar.int 1)]] }

/-- An environment whose Primary client exists but whose Primary lookup
raises for the orders table, while the Secondary lookup would succeed
for every table. -/
def envPrimaryTableFailure : SchemaEnv :=
  { pgAvailable := true
    dbClientOk := true
    pgDescribe := fun t =>
      if t = "orders" then Except.error "connection reset"
      else Except.ok [Column.mk "id" "integer" "NO" none]
    pgRels := fun _ => Except.ok []
    sbDescribe := fun _ => Except.ok [Column.mk "id" "integer" "NO" none]
    sbRels := fun _ => Except.ok []
    enabledTables := [] }

/-- An environment with no Primary configuration, so the Secondary
client serves the whole pass. -/
def envSecondaryOnly : SchemaEnv :=
  { pgAvailable := false
    dbClientOk := true
    pgDescribe := fun _ => Except.error "unavailable"
    pgRels := fun _ => Except.error "unavailable"
    sbDescribe := fun _ => Except.ok [Column.mk "id" "integer" "NO" none]
    sbRels := fun _ => Except.ok []
    enabledTables := [] }

/-- A one-table mapping with one column and one relationship, used to
exhibit the exact bytes the formatter writes. -/
def exTables : List (String × TableInfo) :=
  [("users",
    TableInfo.mk [Column.mk "id" "integer" "NO" none]
      [Rel.mk "users" "org_id" "orgs" "id"])]

/-- A non-system message whose string content carries a delimited
schema block. -/
def blockedUserMsg : Message :=
  Message.mk "user"
    (MsgContent.str ("hi ".data ++ DB_SCHEMA_START_DELIMITER
      ++ " old ".data ++ DB_SCHEMA_END_DELIMITER))

/-- C4: value coercion is total by construction and applies its rules in
the written order — case-insensitive null first, then true and false,
then the all-digit integer rule, and any other string is returned
unmodified; in particular 5 becomes the integer 5, true the boolean,
null the null value, and 5.5 stays the string 5.5. -/
theorem coerce_rules_ordered :
    (∀ s, pyLower s = "null".data → coerce s = Scalar.null) ∧
    (∀ s, pyLower s ≠ "null".data → pyLower s = "true".data →
      coerce s = Scalar.bool true) ∧
    (∀ s, pyLower s ≠ "null".data → pyLower s ≠ "true".data →
      pyLower s = "false".data → coerce s = Scalar.bool false) ∧
    (∀ s, pyLower s ≠ "null".data → pyLower s ≠ "true".data →
      pyLower s ≠ "false".data → pyIsDigit s = true →
      coerce s = Scalar.int (pyInt s)) ∧
    (∀ s, pyLower s ≠ "null".data → pyLower s ≠ "true".data →
      pyLower s ≠ "false".data → pyIsDigit s = false → coerce s = Scalar.str s) ∧
    coerce "5".data = Scalar.int 5 ∧ coerce "true".data = Scalar.bool true ∧
    coerce "null".data = Scalar.null ∧ coerce "5.5".data = Scalar.str "5.5".data := by
  refine ⟨?_, ?_, ?_, ?_, ?_, by decide, by decide, by decide, by decide⟩ <;>
    intro s <;> intros <;> simp [coerce, *]

/-- Witness for C4: the theorem applied at concrete inputs. -/
theorem coerce_rules_ordered_witness :
    coerce "NULL".data = Scalar.null ∧
    coerce "False".data = Scalar.bool false ∧
    coerce "007".data = Scalar.int (pyInt "007".data) ∧
    coerce "a1".data = Scalar.str "a1".data :=
  ⟨coerce_rules_ordered.1 "NULL".data (by decide),
   coerce_rules_ordered.2.2.1 "False".data (by decide) (by decide) (by decide),
   coerce_rules_ordered.2.2.2.1 "007".data (by decide) (by decide) (by decide) (by decide),
   coerce_rules_ordered.2.2.2.2.1 "a1".data (by decide) (by decide) (by decide) (by decide)⟩

/-- C5: every clause that splits into at least three dot-separated parts
parses with the first part as column, the second as operator, and the
remaining parts rejoined with dots as the raw value; in particular the
liked email pattern keeps its dot. -/
theorem parse_clause_rejoin :
    (∀ expr c op v0 rest, splitChar '.' (pyStrip expr) = c :: op :: v0 :: rest →
      parseParts expr = some (c, op, joinChar '.' (v0 :: rest))) ∧
    parseParts "email.like.%example.com".data =
      some ("email".data, "like".data, "%example.com".data) := by
  constructor
  · intro expr c op v0 rest h
    simp [parseParts, h]
  · decide

/-- Witness for C5: the theorem applied at a concrete clause. -/
theorem parse_clause_rejoin_witness :
    parseParts " price.gte.10.5 ".data =
      some ("price".data, "gte".data, joinChar '.' ["10".data, "5".data]) :=
  parse_clause_rejoin.1 " price.gte.10.5 ".data "price".data "gte".data
    "10".data ["5".data] (by decide)

/-- C6: the raw-filter translation never fails: absent or empty input
produces no predicates, a clause with fewer than three dot-separated
parts is skipped while the remaining clauses are still processed, and a
later valid clause in the same string is still applied. -/
theorem raw_filter_parser_skips_invalid :
    (∀ qo q, applyRawFilters qo q none = q) ∧
    (∀ qo q, applyRawFilters qo q (some []) = q) ∧
    (∀ qo q bad rest, (splitChar '.' (pyStrip bad)).length < 3 →
      applyClauses qo q (bad :: rest) = applyClauses qo q rest) ∧
    parsedPredicates allowedOperators "col.eq,age.gt.25".data =
      [Predicate.mk "age".data "gt".data (Scalar.int 25)] := by
  refine ⟨fun qo q => rfl, fun qo q => rfl, ?_, by decide⟩
  intro qo q bad rest h
  have hnone : parseParts bad = none := by
    unfold parseParts
    cases hl : splitChar '.' (pyStrip bad) with
    | nil => rfl
    | cons a t =>
      cases t with
      | nil => rfl
      | cons b t2 =>
        cases t2 with
        | nil => rfl
        | cons c t3 =>
          rw [hl] at h
          simp at h
          omega
  simp [applyClauses, hnone]

/-- Witness for C6: the skipping rule applied to a concrete two-part
clause. -/
theorem raw_filter_parser_skips_invalid_witness :
    applyClauses allowedOperators [] ["col.eq".data, "age.gt.25".data] =
      applyClauses allowedOperators [] ["age.gt.25".data] :=
  raw_filter_parser_skips_invalid.2.2.1 allowedOperators [] "col.eq".data
    ["age.gt.25".data] (by decide)

/-- Counterexample to C7: the gate is the hasattr probe against the
query object's method surface, and that surface — witnessed by
client.py itself calling order, limit, offset and execute on the same
object — exceeds the nine-operator allowlist.  The clause col.limit.5
has an operator outside the allowlist yet is not skipped: it passes the
gate and is applied as the limit method, another query operation. -/
theorem operator_outside_allowlist_applied :
    parsedPredicates queryObjectMethods "col.limit.5".data =
      [Predicate.mk "col".data "limit".data (Scalar.int 5)] ∧
    "limit".data ∉ allowedOperators ∧
    "limit".data ∈ queryObjectMethods := by
  refine ⟨by decide, by decide, by decide⟩

/-- C7 as amended: a predicate is applied exactly when the clause
operator names a callable attribute of the backend query object, a
surface that is not the nine-operator allowlist — it contains at least
order, limit, offset and execute, so a clause like col.limit.5 is
applied as another query operation rather than skipped.  Only an
operator missing from the query object's method surface is skipped with
a diagnostic, and an applied clause always contributes its own literal
operator. -/
theorem operator_gate_is_capability_probe :
    (∀ qo q exprs p, p ∈ applyClauses qo q exprs → p ∈ q ∨ p.operator ∈ qo) ∧
    (∀ qo q expr rest c op v, parseParts expr = some (c, op, v) → op ∉ qo →
      applyClauses qo q (expr :: rest) = applyClauses qo q rest) ∧
    (∀ qo q expr rest c op v, parseParts expr = some (c, op, v) → op ∈ qo →
      applyClauses qo q (expr :: rest) =
        applyClauses qo (q ++ [Predicate.mk c op (coerce v)]) rest) ∧
    parsedPredicates queryObjectMethods "col.limit.5,b.madeup.2".data =
      [Predicate.mk "col".data "limit".data (Scalar.int 5)] ∧
    "limit".data ∉ allowedOperators := by
  refine ⟨?_, ?_, ?_, by decide, by decide⟩
  · intro qo q exprs
    induction exprs generalizing q with
    | nil => intro p hp; exact Or.inl hp
    | cons e rest ih =>
      intro p hp
      simp only [applyClauses] at hp
      cases hpp : parseParts e with
      | none =>
        rw [hpp] at hp
        exact ih q p hp
      | some cov =>
        obtain ⟨c, op, v⟩ := cov
        rw [hpp] at hp
        by_cases hop : op ∈ qo
        · simp only [if_pos hop] at hp
          rcases ih _ p hp with hq | hqo
          · rcases List.mem_append.mp hq with hq' | hnew
            · exact Or.inl hq'
            · right
              have : p = Predicate.mk c op (coerce v) := by
                simpa using hnew
              rw [this]
              exact hop
          · exact Or.inr hqo
        · simp only [if_neg hop] at hp
          exact ih q p hp
  · intro qo q expr rest c op v hpp hop
    simp [applyClauses, hpp, hop]
  · intro qo q expr rest c op v hpp hop
    simp [applyClauses, hpp, hop]

/-- Witness for the amended C7: against the demonstrated method
surface, a clause whose operator names no method is skipped, while the
col.limit.5 clause is applied as the limit method. -/
theorem operator_gate_is_capability_probe_witness :
    applyClauses queryObjectMethods [] ["b.madeup.2".data] =
      applyClauses queryObjectMethods [] [] ∧
    applyClauses queryObjectMethods [] ["col.limit.5".data] =
      applyClauses queryObjectMethods
        [Predicate.mk "col".data "limit".data (coerce "5".data)] [] :=
  ⟨operator_gate_is_capability_probe.2.1 queryObjectMethods [] "b.madeup.2".data
      [] "b".data "madeup".data "2".data (by decide) (by decide),
   operator_gate_is_capability_probe.2.2.1 queryObjectMethods []
      "col.limit.5".data [] "col".data "limit".data "5".data
      (by decide) (by decide)⟩

/-- C9: query_table builds the same backend query for limit 0 and
offset 0 as for absent limit and offset — neither clause is applied —
and consequently executing an unfiltered query passed limit 0 and
offset 0 returns every row rather than none. -/
theorem query_table_zero_pagination :
    (∀ qo t s f o r, query_table qo t s f o (some 0) (some 0) r =
      query_table qo t s f o none none r) ∧
    (∀ ev rows qo t s,
      (query_table qo t s none none (some 0) (some 0) none).map
        (fun q => runBuilt ev q rows) = some rows) := by
  constructor
  · intro qo t s f o r
    have hp : ∀ q2 : BuiltQuery, paginate q2 (some 0) (some 0) = paginate q2 none none := by
      intro q2
      simp [paginate]
    simp only [query_table, hp]
  · intro ev rows qo t s
    simp [query_table, paginate, applyRawFilters, runBuilt, List.filter_true]

/-- C10: cleaning rewrites each message in place, preserving count and
order; system messages, non-string contents, and contents missing a
delimiter are untouched; and a non-system string content whose first
start marker precedes its first end marker loses exactly that first
delimited block. -/
theorem clean_messages_frame :
    (∀ msgs, (clean_db_schema_from_messages msgs).length = msgs.length) ∧
    (∀ msgs (i : Nat), (clean_db_schema_from_messages msgs).get? i =
      (msgs.get? i).map cleanMessage) ∧
    (∀ m, m.role = "system" → cleanMessage m = m) ∧
    (∀ m, (∀ c, m.content ≠ MsgContent.str c) → cleanMessage m = m) ∧
    (∀ m c, m.content = MsgContent.str c →
      ((firstIdx DB_SCHEMA_START_DELIMITER c).isSome = false ∨
        (firstIdx DB_SCHEMA_END_DELIMITER c).isSome = false) →
      cleanMessage m = m) ∧
    (∀ m pre mid post, m.role ≠ "system" →
      m.content = MsgContent.str
        (pre ++ DB_SCHEMA_START_DELIMITER ++ mid ++ DB_SCHEMA_END_DELIMITER ++ post) →
      firstIdx DB_SCHEMA_START_DELIMITER
        (pre ++ DB_SCHEMA_START_DELIMITER ++ mid ++ DB_SCHEMA_END_DELIMITER ++ post) =
        some pre.length →
      firstIdx DB_SCHEMA_END_DELIMITER
        (pre ++ DB_SCHEMA_START_DELIMITER ++ mid ++ DB_SCHEMA_END_DELIMITER ++ post) =
        some (pre.length + DB_SCHEMA_START_DELIMITER.length + mid.length) →
      cleanMessage m = { m with content := MsgContent.str (pre ++ post) }) := by
  refine ⟨?_, ?_, ?_, ?_, ?_, ?_⟩
  · intro msgs
    simp [clean_db_schema_from_messages]
  · intro msgs i
    simp [clean_db_schema_from_messages]
  · intro m h
    simp [cleanMessage, h]
  · intro m h
    unfold cleanMessage
    cases hc : m.content with
    | str c => exact absurd hc (h c)
    | parts l => simp
    | other => simp
  · intro m c hc hmiss
    unfold cleanMessage
    rw [hc]
    by_cases hrole : m.role = "system"
    · simp [hrole]
    · simp only [if_neg, hrole]
      cases h1 : firstIdx DB_SCHEMA_START_DELIMITER c with
      | none => simp [hrole, h1, ← hc]
      | some si =>
        cases h2 : firstIdx DB_SCHEMA_END_DELIMITER c with
        | none => simp [hrole, h1, h2, ← hc]
        | some ei =>
          rw [h1, h2] at hmiss
          simp at hmiss
  · intro m pre mid post hrole hc h1 h2
    have htake :
        (pre ++ DB_SCHEMA_START_DELIMITER ++ mid ++ DB_SCHEMA_END_DELIMITER ++ post).take
          pre.length = pre := by
      have : pre ++ DB_SCHEMA_START_DELIMITER ++ mid ++ DB_SCHEMA_END_DELIMITER ++ post =
          pre ++ (DB_SCHEMA_START_DELIMITER ++ mid ++ DB_SCHEMA_END_DELIMITER ++ post) := by
        simp [List.append_assoc]
      rw [this, List.take_left]
    have hdrop :
        (pre ++ DB_SCHEMA_START_DELIMITER ++ mid ++ DB_SCHEMA_END_DELIMITER ++ post).drop
          (pre.length + DB_SCHEMA_START_DELIMITER.length + mid.length +
            DB_SCHEMA_END_DELIMITER.length) = post := by
      have hsplit : pre ++ DB_SCHEMA_START_DELIMITER ++ mid ++ DB_SCHEMA_END_DELIMITER ++ post =
          (pre ++ DB_SCHEMA_START_DELIMITER ++ mid ++ DB_SCHEMA_END_DELIMITER) ++ post := by
        simp [List.append_assoc]
      have hlen : (pre ++ DB_SCHEMA_START_DELIMITER ++ mid ++ DB_SCHEMA_END_DELIMITER).length =
          pre.length + DB_SCHEMA_START_DELIMITER.length + mid.length +
            DB_SCHEMA_END_DELIMITER.length := by
        simp only [List.length_append]
      rw [hsplit, ← hlen, List.drop_left]
    unfold cleanMessage
    rw [hc]
    simp only [if_pos hrole, h1, h2]
    rw [htake, hdrop]

/-- Witness for C10: block removal applied to a concrete message. -/
theorem clean_messages_frame_witness :
    cleanMessage
        (Message.mk "user" (MsgContent.str
          ("ab".data ++ DB_SCHEMA_START_DELIMITER ++ "xy".data
            ++ DB_SCHEMA_END_DELIMITER ++ "cd".data))) =
      Message.mk "user" (MsgContent.str ("ab".data ++ "cd".data)) :=
  clean_messages_frame.2.2.2.2.2
    (Message.mk "user" (MsgContent.str
      ("ab".data ++ DB_SCHEMA_START_DELIMITER ++ "xy".data
        ++ DB_SCHEMA_END_DELIMITER ++ "cd".data)))
    "ab".data "xy".data "cd".data (by decide) rfl (by decide) (by decide)

/-- Counterexample to C1: a call to update_records and one to
delete_records with the empty equality-filter mapping and absent raw
filters raise nothing — the backend receives a mutation whose predicate
list is empty and its data comes back as the ordinary result. -/
theorem update_delete_empty_filters_execute :
    update_records fullTableBackend allowedOperators "tasks".data
        [("status".data, Scalar.str "done".data)] [] none =
      Except.ok [[("id".data, Scalar.int 1)]] ∧
    (update_call allowedOperators "tasks".data
        [("status".data, Scalar.str "done".data)] [] none).preds = [] ∧
    delete_records fullTableBackend allowedOperators "tasks".data [] none =
      Except.ok [[("id".data, Scalar.int 1)]] ∧
    (delete_call allowedOperators "tasks".data [] none).preds = [] :=
  ⟨rfl, rfl, rfl, rfl⟩

/-- C1 as amended: with empty filters and absent raw filters,
update_records and delete_records validate nothing — the executed call
carries an empty predicate list (a full-table mutation), and when the
backend reports no error the call returns its data instead of any
error. -/
theorem update_delete_empty_filters_full_table :
    ∀ (backend : MutationCall → BackendResponse) (qo : List (List Char))
      (t : List Char) (d : List (List Char × Scalar)),
      (update_call qo t d [] none).preds = [] ∧
      (delete_call qo t [] none).preds = [] ∧
      ((backend (update_call qo t d [] none)).error = none →
        update_records backend qo t d [] none =
          Except.ok (backend (update_call qo t d [] none)).data) ∧
      ((backend (delete_call qo t [] none)).error = none →
        delete_records backend qo t [] none =
          Except.ok (backend (delete_call qo t [] none)).data) := by
  intro backend qo t d
  refine ⟨rfl, rfl, ?_, ?_⟩ <;> intro h
  · simp [update_records, h]
  · simp [delete_records, h]

/-- Witness for the amended C1 at a concrete backend and table. -/
theorem update_delete_empty_filters_full_table_witness :
    update_records fullTableBackend allowedOperators "notes".data [] [] none =
      Except.ok (fullTableBackend
        (update_call allowedOperators "notes".data [] [] none)).data :=
  (update_delete_empty_filters_full_table fullTableBackend allowedOperators
    "notes".data []).2.2.1 rfl

/-- If the Primary describe lookup for some listed table raises, the
whole Primary gathering pass raises. -/
theorem gatherPg_error_of_mem (env : SchemaEnv) :
    ∀ (ts : List String) (t : String) (e : String), t ∈ ts →
      env.pgDescribe t = Except.error e →
      ∃ e2, gatherPg env ts = Except.error e2 := by
  intro ts
  induction ts with
  | nil =>
    intro t e ht
    exact absurd ht (List.not_mem_nil t)
  | cons t0 rest ih =>
    intro t e ht he
    rcases List.mem_cons.mp ht with h0 | hrest
    · subst h0
      exact ⟨e, by simp [gatherPg, he]⟩
    · unfold gatherPg
      cases hd : env.pgDescribe t0 with
      | error e0 => exact ⟨e0, rfl⟩
      | ok cols =>
        cases hr : env.pgRels t0 with
        | error e0 => exact ⟨e0, rfl⟩
        | ok rels =>
          obtain ⟨e2, hg⟩ := ih t e hrest he
          exact ⟨e2, by simp [hg]⟩

/-- Counterexample to C2: with the Primary client available, a Primary
failure on the orders table makes the whole pass return None, even
though the Secondary lookup for orders succeeds — no per-table fallback
happens, the other tables are lost too, and no failure list exists in
the output. -/
theorem schema_pass_primary_table_failure_aborts :
    db_inject_schema_info envPrimaryTableFailure (some ["users", "orders", "items"]) = none ∧
    envPrimaryTableFailure.sbDescribe "orders" =
      Except.ok [Column.mk "id" "integer" "NO" none] ∧
    envPrimaryTableFailure.pgDescribe "users" =
      Except.ok [Column.mk "id" "integer" "NO" none] :=
  ⟨rfl, rfl, rfl⟩

/-- C2 as amended: fallback to the Secondary backend happens only when
the Primary client cannot be constructed, and then serves the entire
pass; once the Primary client exists, an exception during any single
table's Primary lookup returns None for the whole pass — no per-table
fallback and no failure list. -/
theorem schema_pass_fallback_behavior :
    (∀ (env : SchemaEnv) (ts : List String) (t : String) (e : String),
      env.pgAvailable = true → t ∈ ts → env.pgDescribe t = Except.error e →
      db_inject_schema_info env (some ts) = none) ∧
    (∀ (env : SchemaEnv) (ts : List String) info,
      env.pgAvailable = false → env.dbClientOk = true → ts ≠ [] →
      gatherSb env ts = Except.ok info →
      db_inject_schema_info env (some ts) = some (format_schema_for_agent info)) := by
  constructor
  · intro env ts t e hpg ht he
    obtain ⟨e2, hg⟩ := gatherPg_error_of_mem env ts t e ht he
    have hne : ts ≠ [] := List.ne_nil_of_mem ht
    simp [db_inject_schema_info, resolveTables, hpg, hne, hg]
  · intro env ts info hpg hdb hne hg
    simp [db_inject_schema_info, resolveTables, hpg, hdb, hne, hg]

/-- Witness for the amended C2: the Primary-abort rule at the
counterexample environment, and the construction-time fallback on a
Secondary-only environment. -/
theorem schema_pass_fallback_behavior_witness :
    db_inject_schema_info envPrimaryTableFailure (some ["orders", "users"]) = none ∧
    db_inject_schema_info envSecondaryOnly (some ["users"]) =
      some (format_schema_for_agent
        [("users", TableInfo.mk [Column.mk "id" "integer" "NO" none] [])]) :=
  ⟨schema_pass_fallback_behavior.1 envPrimaryTableFailure ["orders", "users"]
      "orders" "connection reset" rfl (by decide) rfl,
   schema_pass_fallback_behavior.2 envSecondaryOnly ["users"]
      [("users", TableInfo.mk [Column.mk "id" "integer" "NO" none] [])]
      rfl rfl (by decide) rfl⟩

/-- Appending one rendered column at a time equals appending the
concatenation of all column lines. -/
theorem foldl_columnLine (cols : List Column) :
    ∀ a, cols.foldl (fun acc column => acc ++ columnLine column) a =
      a ++ strConcat (cols.map columnLine) := by
  induction cols with
  | nil => intro a; simp [strConcat]
  | cons c cs ih =>
    intro a
    simp only [List.foldl_cons, List.map_cons, strConcat]
    rw [ih, String.append_assoc]

/-- Appending one rendered relationship at a time equals appending the
concatenation of all relationship lines. -/
theorem foldl_relLine (rels : List Rel) :
    ∀ a, rels.foldl (fun acc rel => acc ++ relLine rel) a =
      a ++ strConcat (rels.map relLine) := by
  induction rels with
  | nil => intro a; simp [strConcat]
  | cons r rs ih =>
    intro a
    simp only [List.foldl_cons, List.map_cons, strConcat]
    rw [ih, String.append_assoc]

/-- joinLines distributes over list append. -/
theorem joinLines_append (a b : List String) :
    joinLines (a ++ b) = joinLines a ++ joinLines b := by
  induction a with
  | nil => simp [joinLines]
  | cons x xs ih => simp [joinLines, ih, String.append_assoc]

/-- With a non-empty (truthy) default handled, the code column line is
the spec column line plus its newline. -/
theorem columnLine_eq_spec (c : Column) (h : c.column_default ≠ some "") :
    columnLine c = specColumnLine c ++ "\n" := by
  unfold columnLine specColumnLine
  cases hd : c.column_default with
  | none => simp [String.append_assoc]
  | some d =>
    have hdne : d ≠ "" := by
      intro h0
      exact h (by rw [hd, h0])
    simp [hdne, String.append_assoc]

/-- The code relationship line is the spec relationship line with the
Unicode arrow plus its newline. -/
theorem relLine_eq_spec (r : Rel) : relLine r = specRelLine " → " r ++ "\n" := by
  unfold relLine specRelLine
  simp [String.append_assoc]

/-- Spec column lines joined with newlines equal the concatenation of
the code column lines. -/
theorem joinLines_spec_cols (cols : List Column)
    (h : ∀ c ∈ cols, c.column_default ≠ some "") :
    joinLines (cols.map specColumnLine) = strConcat (cols.map columnLine) := by
  induction cols with
  | nil => rfl
  | cons c cs ih =>
    simp only [List.map_cons, joinLines, strConcat]
    rw [columnLine_eq_spec c (h c (List.mem_cons_self c cs)),
      ih (fun c2 hc2 => h c2 (List.mem_cons_of_mem c hc2)), String.append_assoc]

/-- Spec relationship lines joined with newlines equal the
concatenation of the code relationship lines. -/
theorem joinLines_spec_rels (rels : List Rel) :
    joinLines (rels.map (specRelLine " → ")) = strConcat (rels.map relLine) := by
  induction rels with
  | nil => rfl
  | cons r rs ih =>
    simp only [List.map_cons, joinLines, strConcat]
    rw [relLine_eq_spec r, ih, String.append_assoc]

/-- One spec table block joined with newlines is exactly the text the
code formatter appends for that table. -/
theorem specBlock_eq_tableText (tn : String) (ti : TableInfo)
    (h : ∀ c ∈ ti.columns, c.column_default ≠ some "") :
    joinLines (specTableBlock " → " tn ti) = tableText (tn, ti) := by
  unfold specTableBlock tableText
  by_cases hrel : ti.relationships = []
  · simp only [hrel, joinLines_append]
    rw [joinLines_spec_cols ti.columns h]
    simp [joinLines, String.append_assoc, String.append_empty, String.empty_append,
      show ("Columns:\n" : String) = "Columns:" ++ "\n" from rfl]
  · simp only [joinLines_append]
    rw [joinLines_spec_cols ti.columns h]
    simp [hrel, joinLines, joinLines_spec_rels, String.append_assoc,
      String.append_empty, String.empty_append,
      show ("Columns:\n" : String) = "Columns:" ++ "\n" from rfl,
      show ("Relationships:\n" : String) = "Relationships:" ++ "\n" from rfl]

/-- The formatter fold with any accumulator appends the concatenation
of the per-table texts. -/
theorem format_foldl_aux (ti : List (String × TableInfo)) :
    ∀ (a : String),
      List.foldl (fun schema_text tbl =>
        let schema_text := schema_text ++ "Table: " ++ tbl.1 ++ "\n"
        let schema_text := schema_text ++ "Columns:\n"
        let schema_text := tbl.2.columns.foldl
          (fun acc column => acc ++ columnLine column) schema_text
        let schema_text :=
          if tbl.2.relationships ≠ [] then
            tbl.2.relationships.foldl (fun acc rel => acc ++ relLine rel)
              (schema_text ++ "Relationships:\n")
          else schema_text
        schema_text ++ "\n") a ti = a ++ strConcat (ti.map tableText) := by
  induction ti with
  | nil => intro a; simp [strConcat]
  | cons x xs ih =>
    intro a
    simp only [List.foldl_cons, List.map_cons, strConcat]
    rw [ih]
    have hstep :
        (let s1 := a ++ "Table: " ++ x.1 ++ "\n"
         let s2 := s1 ++ "Columns:\n"
         let s3 := x.2.columns.foldl (fun acc column => acc ++ columnLine column) s2
         let s4 :=
           if x.2.relationships ≠ [] then
             x.2.relationships.foldl (fun acc rel => acc ++ relLine rel)
               (s3 ++ "Relationships:\n")
           else s3
         s4 ++ "\n") = a ++ tableText x := by
      simp only [foldl_columnLine, foldl_relLine, tableText]
      by_cases hrel : x.2.relationships = []
      · simp [hrel, String.append_assoc]
      · simp [hrel, String.append_assoc]
    rw [hstep, String.append_assoc]

/-- The code formatter output is the header plus the per-table texts. -/
theorem format_eq_concat (ti : List (String × TableInfo)) :
    format_schema_for_agent ti =
      "DATABASE SCHEMA INFORMATION:\n\n" ++ strConcat (ti.map tableText) ∧
    format_schema_from_postgres_data ti =
      "DATABASE SCHEMA INFORMATION:\n\n" ++ strConcat (ti.map tableText) := by
  constructor
  · unfold format_schema_for_agent
    exact format_foldl_aux ti "DATABASE SCHEMA INFORMATION:\n\n"
  · unfold format_schema_from_postgres_data
    exact format_foldl_aux ti "DATABASE SCHEMA INFORMATION:\n\n"

/-- The spec table blocks joined with newlines equal the concatenation
of the per-table texts. -/
theorem joinLines_spec_blocks (ti : List (String × TableInfo))
    (h : ∀ p ∈ ti, ∀ c ∈ p.2.columns, c.column_default ≠ some "") :
    joinLines (ti.flatMap (fun tbl => specTableBlock " → " tbl.1 tbl.2)) =
      strConcat (ti.map tableText) := by
  induction ti with
  | nil => rfl
  | cons x xs ih =>
    obtain ⟨tn, t⟩ := x
    simp only [List.flatMap_cons, List.map_cons, strConcat]
    rw [joinLines_append,
      specBlock_eq_tableText tn t (h (tn, t) (List.mem_cons_self (tn, t) xs)),
      ih (fun p hp => h p (List.mem_cons_of_mem (tn, t) hp))]

/-- Counterexample to C3: the relationship line uses the Unicode right
arrow, so the output differs from the claimed ASCII-arrow byte format;
the exact bytes on a one-table mapping are shown. -/
theorem format_schema_arrow_not_ascii :
    format_schema_for_agent exTables ≠ specFormatAscii exTables ∧
    format_schema_for_agent exTables =
      "DATABASE SCHEMA INFORMATION:\n\nTable: users\nColumns:\n  - id: integer NOT NULL\nRelationships:\n  - org_id → orgs.id\n\n" := by
  constructor
  · decide
  · decide

/-- C3 as amended: both formatters reproduce the claimed byte format
exactly, except that the relationship arrow is the Unicode right arrow
rather than ASCII; truthy defaults (the only ones information_schema
produces) are assumed. -/
theorem format_schema_matches_spec_arrow :
    ∀ (ti : List (String × TableInfo)),
      (∀ p ∈ ti, ∀ c ∈ p.2.columns, c.column_default ≠ some "") →
      format_schema_for_agent ti = specFormatArrow ti ∧
      format_schema_from_postgres_data ti = specFormatArrow ti := by
  intro ti h
  have hspec : specFormatArrow ti =
      "DATABASE SCHEMA INFORMATION:\n\n" ++ strConcat (ti.map tableText) := by
    unfold specFormatArrow specFormat
    rw [joinLines_append, joinLines_spec_blocks ti h]
    simp [joinLines, String.append_assoc,
      show ("DATABASE SCHEMA INFORMATION:\n\n" : String) =
        "DATABASE SCHEMA INFORMATION:" ++ "\n" ++ "\n" from rfl]
  rw [hspec, (format_eq_concat ti).1, (format_eq_concat ti).2]
  exact ⟨rfl, rfl⟩

/-- Witness for the amended C3 at the one-table mapping. -/
theorem format_schema_matches_spec_arrow_witness :
    format_schema_for_agent exTables = specFormatArrow exTables :=
  (format_schema_matches_spec_arrow exTables (by decide)).1

/-- An occurrence in the right part of an append is an occurrence in
the whole. -/
theorem firstIdx_isSome_append (pat s t : List Char)
    (h : (firstIdx pat t).isSome = true) :
    (firstIdx pat (s ++ t)).isSome = true := by
  induction s with
  | nil => simpa using h
  | cons c cs ih =>
    simp only [List.cons_append, firstIdx]
    by_cases hp : pat.isPrefixOf (c :: (cs ++ t)) = true
    · simp [hp]
    · simp [hp, ih]

/-- A pattern occurs at the head of itself followed by anything. -/
theorem firstIdx_isSome_self (pat t : List Char) :
    (firstIdx pat (pat ++ t)).isSome = true := by
  have hpre : pat.isPrefixOf (pat ++ t) = true := by
    simp [List.isPrefixOf_iff_prefix]
  cases h : pat ++ t with
  | nil =>
    rw [h] at hpre
    simp [firstIdx, hpre]
  | cons c rest =>
    rw [h] at hpre
    simp [firstIdx, hpre]

/-- Both delimiters occur in any string content once the delimited
schema block has been appended to it. -/
theorem schemaExistsIn_after_append (c info : List Char) :
    schemaExistsIn (c ++ delimitedSchema info) = true := by
  have hstart : (firstIdx DB_SCHEMA_START_DELIMITER (c ++ delimitedSchema info)).isSome = true := by
    have hsplit : c ++ delimitedSchema info =
        (c ++ "\n\n".data) ++ (DB_SCHEMA_START_DELIMITER ++
          ("\n".data ++ info ++ "\n".data ++ DB_SCHEMA_END_DELIMITER)) := by
      unfold delimitedSchema
      simp [List.append_assoc]
    rw [hsplit]
    exact firstIdx_isSome_append _ _ _ (firstIdx_isSome_self _ _)
  have hend : (firstIdx DB_SCHEMA_END_DELIMITER (c ++ delimitedSchema info)).isSome = true := by
    have hsplit : c ++ delimitedSchema info =
        (c ++ ("\n\n".data ++ DB_SCHEMA_START_DELIMITER ++ "\n".data ++ info
          ++ "\n".data)) ++ DB_SCHEMA_END_DELIMITER := by
      unfold delimitedSchema
      simp [List.append_assoc]
    rw [hsplit]
    have hself : (firstIdx DB_SCHEMA_END_DELIMITER DB_SCHEMA_END_DELIMITER).isSome = true := by
      have := firstIdx_isSome_self DB_SCHEMA_END_DELIMITER []
      rwa [List.append_nil] at this
    exact firstIdx_isSome_append _ _ _ hself
  simp [schemaExistsIn, hstart, hend]

/-- Counterexample to C8: injecting over a conversation whose
non-system message still carries a delimited schema block leaves that
message untouched — nothing is stripped from non-system messages — while
the fresh block is appended to the system message. -/
theorem inject_does_not_strip_nonsystem :
    inject_db_schema (some "S".data)
        [Message.mk "system" (MsgContent.str "You are helpful.".data), blockedUserMsg] =
      [Message.mk "system"
          (MsgContent.str ("You are helpful.".data ++ delimitedSchema "S".data)),
        blockedUserMsg] ∧
    schemaExistsIn ("hi ".data ++ DB_SCHEMA_START_DELIMITER
      ++ " old ".data ++ DB_SCHEMA_END_DELIMITER) = true := by
  constructor
  · decide
  · decide

/-- C8 as amended: injection never touches any message beyond the
first, returns the list unchanged when the first message is not a
system message, and is idempotent when the first message is a system
message with string content — a second injection is skipped because the
delimiters are already present, so blocks never accumulate there;
nothing is ever stripped from non-system messages. -/
theorem inject_idempotent_on_string_system :
    (∀ g msgs, (inject_db_schema g msgs).tail = msgs.tail) ∧
    (∀ g m rest, m.role ≠ "system" → inject_db_schema g (m :: rest) = m :: rest) ∧
    (∀ info c rest,
      inject_db_schema (some info)
          (inject_db_schema (some info)
            (Message.mk "system" (MsgContent.str c) :: rest)) =
        inject_db_schema (some info)
          (Message.mk "system" (MsgContent.str c) :: rest)) := by
  refine ⟨?_, ?_, ?_⟩
  · intro g msgs
    cases msgs with
    | nil => rfl
    | cons m rest =>
      simp only [inject_db_schema]
      split
      · rfl
      · split
        · rfl
        · split
          · split <;> rfl
          · rfl
  · intro g m rest h
    cases g with
    | none => simp [inject_db_schema, h]
    | some info => simp [inject_db_schema, h]
  · intro info c rest
    by_cases hinfo : info = []
    · subst hinfo
      have hid : ∀ msgs2, inject_db_schema (some ([] : List Char)) msgs2 = msgs2 := by
        intro msgs2
        cases msgs2 with
        | nil => rfl
        | cons m r =>
          by_cases hrole : m.role = "system"
          · cases hc : m.content with
            | str c2 =>
              by_cases hse : schemaExistsIn c2 = true
              · simp [inject_db_schema, hrole, hc, hse]
              · simp [inject_db_schema, hrole, hc, hse]
            | parts l => simp [inject_db_schema, hrole, hc]
            | other => simp [inject_db_schema, hrole, hc]
          · simp [inject_db_schema, hrole]
      rw [hid, hid]
    · by_cases hse : schemaExistsIn c = true
      · have h1 : inject_db_schema (some info)
            (Message.mk "system" (MsgContent.str c) :: rest) =
            Message.mk "system" (MsgContent.str c) :: rest := by
          simp [inject_db_schema, hse]
        rw [h1]
        exact h1
      · have h1 : inject_db_schema (some info)
            (Message.mk "system" (MsgContent.str c) :: rest) =
            Message.mk "system"
              (MsgContent.str (c ++ delimitedSchema info)) :: rest := by
          simp [inject_db_schema, hse, hinfo]
        rw [h1]
        simp [inject_db_schema, schemaExistsIn_after_append]

/-- Witness for the amended C8: a conversation headed by a non-system
message — even one still carrying a block — is returned unchanged. -/
theorem inject_idempotent_on_string_system_witness :
    inject_db_schema (some "S".data) [blockedUserMsg] = [blockedUserMsg] :=
  inject_idempotent_on_string_system.2.1 (some "S".data) blockedUserMsg []
    (by decide)

end MrSupabase
